import Mathlib

/-!
# Shallow embedding of the `MotionObservable` operator engine

This file embeds the operators of `MotionObservable` (the `material-motion-js`
stream engine) in Lean 4 and proves properties of them.

Values flowing through a stream are dynamically typed JavaScript values; we
model the fragment the operators inspect with `JSVal`.  Each operator's
`next`-channel operation is embedded as a Lean function from the received
value (and, for stateful operators, the closure state) to the list of values
it dispatches downstream, mirroring the source line by line.
-/

/-- A JavaScript value, as far as the operators inspect one: `undefined`,
`null`, booleans, numbers, strings, and plain objects (ordered field lists).
Numbers are modelled as integers; every literal appearing in the source's
relevant operators (`0`, `1`, `7`, ...) is integral. -/
inductive JSVal where
  | undefined
  | null
  | bool (b : Bool)
  | num (n : Int)
  | str (s : String)
  | obj (fields : List (String × JSVal))
deriving Repr

/-- JavaScript property access `v[key]`, restricted to the cases the plucker
can reach: an object yields the field's value, or `undefined` when the field
is absent; a primitive (boolean, number, string) has none of the accessed
user-defined properties, so access yields `undefined`.  Access on `null` or
`undefined` is NOT total in JavaScript (it throws a `TypeError`); callers
must check for those before calling `getProp`. -/
def getProp (v : JSVal) (key : String) : JSVal :=
  match v with
  | .obj fields => (List.lookup key fields).getD .undefined
  | _ => .undefined

/-- The `TypeError` raised when path traversal indexes into `undefined` or
`null` (the "PathResolutionError-class" condition); records the offending
segment. -/
structure PathResolutionError where
  segment : String
deriving Repr, DecidableEq

/-- The loop body of `plucker` (src/unnamed/part_000 lines 384-392):
`for (let pathSegment of pathSegments) result = result[pathSegment]`.
Indexing throws a `TypeError` exactly when `result` is `undefined` or `null`
at the start of an iteration, i.e. when a segment is still pending. -/
def pluckSegments : List String → JSVal → Except PathResolutionError JSVal
  | [], v => .ok v
  | s :: ss, v =>
    match v with
    | .undefined => .error ⟨s⟩
    | .null => .error ⟨s⟩
    | _ => pluckSegments ss (getProp v s)

/-- JavaScript `path.split('.')` on the character list: split at every `'.'`;
the empty string yields `['']`. -/
def splitCharsOnDot : List Char → List (List Char)
  | [] => [[]]
  | c :: cs =>
    if c = '.' then [] :: splitCharsOnDot cs
    else
      match splitCharsOnDot cs with
      | [] => [[c]]
      | seg :: segs => (c :: seg) :: segs

/-- JavaScript `path.split('.')` (line 382). -/
def splitPath (path : String) : List String :=
  (splitCharsOnDot path.toList).map fun cs => String.mk cs

/-- `createPlucker` (lines 381-393): splits `path` on `'.'` and walks the
segments with successive property lookups. -/
def createPlucker (path : String) : JSVal → Except PathResolutionError JSVal :=
  fun value => pluckSegments (splitPath path) value

/-- The `inverted()` operation (lines 113-137): a `switch` over the received
value with strict-equality cases `0`, `1`, `false`, `true`, dispatching the
toggled partner; the `default` branch dispatches nothing. -/
def invertedOp : JSVal → Option JSVal
  | .num 0 => some (.num 1)
  | .num 1 => some (.num 0)
  | .bool false => some (.bool true)
  | .bool true => some (.bool false)
  | _ => none

/-- Feeding a whole upstream sequence through `inverted()`: each received
value contributes its dispatch, if any, in order. -/
def invertedRun (values : List JSVal) : List JSVal :=
  values.filterMap invertedOp

/-- A `console.log(label, value)` call made by the `log` operator. -/
structure LogEntry where
  label : String
  value : JSVal
deriving Repr

/-- The `log(label, pluckPath)` operation (lines 198-215).  When `pluckPath`
is a non-empty string a plucker is installed and the received `value` is
REASSIGNED to the plucked value before both the `console.log` call and the
`nextChannel` dispatch (`value = plucker(value); console.log(label, value);
nextChannel(value)`).  A plucker failure propagates (`.error`); otherwise the
result is the pair (console writes, dispatched values). -/
def logOp (label : String) (pluckPath : String) (value : JSVal) :
    Except PathResolutionError (List LogEntry × List JSVal) :=
  if pluckPath ≠ "" then
    match createPlucker pluckPath value with
    | .ok plucked => .ok ([⟨label, plucked⟩], [plucked])
    | .error e => .error e
  else
    .ok ([⟨label, value⟩], [value])

/-! ## Runtime stream class (constructor) tracking

`_nextOperator` builds the result stream with
`new (this.constructor as typeof MotionObservable)` (line 368) — the RUNTIME
constructor of the receiver — while `_remember` builds it with a hardcoded
`new MotionObservable` (line 258).  `StreamClass` records which concrete
class a stream instance was constructed with. -/

/-- The concrete runtime class of a stream instance: the base
`MotionObservable`, or some subclass of it (identified by name). -/
inductive StreamClass where
  | motionObservable
  | subclass (name : String)
deriving Repr, DecidableEq

/-- Class of the stream returned by `_nextOperator` (line 368):
`new (this.constructor)<U>(...)`, i.e. the receiver's own runtime class.
Every operator defined through `_nextOperator` (mapRange, mapTo, inverted,
pluck via `_map`, log, `_map`, `_filter`, `_debounce`, and the inner stage of
dedupe) returns a stream of this class. -/
def nextOperatorClass (receiver : StreamClass) : StreamClass :=
  receiver

/-- Class of the stream returned by `merge` (line 62):
`new (this.constructor)<any>(...)`, the receiver's runtime class. -/
def mergeClass (receiver : StreamClass) : StreamClass :=
  receiver

/-- Class of the stream returned by `_remember` (line 258):
`new MotionObservable<T>(...)` — the base class, regardless of the
receiver's runtime class. -/
def rememberClass (_receiver : StreamClass) : StreamClass :=
  .motionObservable

/-- Class of the stream returned by `dedupe` (lines 166-179):
`this._nextOperator(...)._remember()`. -/
def dedupeClass (receiver : StreamClass) : StreamClass :=
  rememberClass (nextOperatorClass receiver)

/-! ## dedupe (lines 162-180)

The operation closes over `dispatched : Bool` and `lastValue : T`
(`lastValue` is uninitialized until the first non-dropped value, which the
`dispatched` guard makes unobservable; we model it as an `Option`). -/

/-- The closure state of one `dedupe` call. -/
structure DedupeState (T : Type) where
  dispatched : Bool
  lastValue : Option T
deriving Repr, DecidableEq

/-- The primitive actions the dedupe operation performs on a received value,
in source order.  The source comment (lines 172-173) requires the flag
writes to precede the dispatch. -/
inductive DedupeAction (T : Type) where
  | setLastValue (value : T)
  | setDispatched
  | dispatch (value : T)
deriving Repr, DecidableEq

/-- The dedupe operation body (lines 167-178) as the ordered list of
primitive actions it performs on receiving `value`: either the early
`return` (no actions), or `lastValue = value; dispatched = true;
dispatch(value)`. -/
def dedupeActions (areEqual : T → T → Bool) (s : DedupeState T) (value : T) :
    List (DedupeAction T) :=
  if s.dispatched && (match s.lastValue with
      | some last => areEqual value last
      | none => false) then
    []
  else
    [.setLastValue value, .setDispatched, .dispatch value]

/-- Interpreting one dedupe action: the state after it, and the values it
dispatches downstream. -/
def applyDedupeAction (s : DedupeState T) : DedupeAction T → DedupeState T × List T
  | .setLastValue v => ({ s with lastValue := some v }, [])
  | .setDispatched => ({ s with dispatched := true }, [])
  | .dispatch v => (s, [v])

/-- Running a list of dedupe actions from a state, accumulating dispatches. -/
def runDedupeActions (s : DedupeState T) : List (DedupeAction T) → DedupeState T × List T
  | [] => (s, [])
  | a :: as_ =>
    let (s₁, out₁) := applyDedupeAction s a
    let (s₂, out₂) := runDedupeActions s₁ as_
    (s₂, out₁ ++ out₂)

/-- One received value through `dedupe`: run the operation's actions. -/
def dedupeStep (areEqual : T → T → Bool) (s : DedupeState T) (value : T) :
    DedupeState T × List T :=
  runDedupeActions s (dedupeActions areEqual s value)

/-- A whole upstream sequence through one `dedupe` instance, starting from
the fresh closure state (`dispatched = false`, `lastValue` unset). -/
def dedupeRun (areEqual : T → T → Bool) (values : List T) : List T :=
  (values.foldl
    (fun acc v =>
      let (s₁, out) := dedupeStep areEqual acc.1 v
      (s₁, acc.2 ++ out))
    (⟨false, none⟩, [])).2

/-! ## `_remember` (lines 250-305)

One call to `_remember()` creates a single closure holding `observers` (a JS
`Set`, which iterates in insertion order — modelled as a duplicate-free
list), the shared upstream `subscription` handle, `lastValue`, and
`hasStarted`.  That closure is shared by every subscriber of the returned
stream, and it persists for the stream's whole lifetime: nothing ever resets
`lastValue` or `hasStarted`.  Observers are identified by numbers. -/

/-- The closure state of one `_remember()` call.  `upstreamSubscribes` and
`upstreamUnsubscribes` count how many times `this.subscribe(...)` (line 273)
and `subscription.unsubscribe()` (line 299) have run. -/
structure RememberGroup (T : Type) where
  observers : List Nat
  hasSubscription : Bool
  upstreamSubscribes : Nat
  upstreamUnsubscribes : Nat
  lastValue : Option T
  hasStarted : Bool
deriving Repr, DecidableEq

/-- The state when `_remember()` has just been called and nobody has
subscribed yet. -/
def RememberGroup.init : RememberGroup T :=
  ⟨[], false, 0, 0, none, false⟩

/-- The `_remember` subscribe body (lines 259-293): a duplicate observer is
warned about and ignored; otherwise, if the observer set is empty, subscribe
to the upstream parent; add the observer to the set; and if `hasStarted`,
synchronously replay `lastValue` to the new observer.  Returns the new state
and the `(observer, value)` dispatches the call makes.  (When
`hasStarted = true`, `lastValue` has been assigned — see
`rememberNextActions` — so the unreachable `none` branch emits nothing.) -/
def rememberSubscribe (g : RememberGroup T) (o : Nat) :
    RememberGroup T × List (Nat × T) :=
  if o ∈ g.observers then
    (g, [])
  else
    let g₁ :=
      if g.observers.isEmpty then
        { g with hasSubscription := true,
                 upstreamSubscribes := g.upstreamSubscribes + 1 }
      else g
    let g₂ := { g₁ with observers := g₁.observers ++ [o] }
    if g₂.hasStarted then
      match g₂.lastValue with
      | some v => (g₂, [(o, v)])
      | none => (g₂, [])
    else
      (g₂, [])

/-- The primitive actions of the upstream `next` callback of `_remember`. -/
inductive RememberAction (T : Type) where
  | dispatch (observer : Nat) (value : T)
  | setHasStarted
  | setLastValue (value : T)
deriving Repr, DecidableEq

/-- The body of the callback `_remember` subscribes to its parent with
(lines 274-285), as the ordered list of primitive actions it performs when
the parent dispatches `value`: first `observers.forEach(o => o.next(value))`
— one dispatch per registered observer, in registration order — and only
then `hasStarted = true; lastValue = value`. -/
def rememberNextActions (g : RememberGroup T) (value : T) :
    List (RememberAction T) :=
  (g.observers.map fun o => RememberAction.dispatch o value)
    ++ [.setHasStarted, .setLastValue value]

/-- Interpreting one remember action: the state after it, and the
`(observer, value)` dispatches it makes. -/
def applyRememberAction (g : RememberGroup T) :
    RememberAction T → RememberGroup T × List (Nat × T)
  | .dispatch o v => (g, [(o, v)])
  | .setHasStarted => ({ g with hasStarted := true }, [])
  | .setLastValue v => ({ g with lastValue := some v }, [])

/-- Running a list of remember actions from a state. -/
def runRememberActions (g : RememberGroup T) :
    List (RememberAction T) → RememberGroup T × List (Nat × T)
  | [] => (g, [])
  | a :: as_ =>
    let (g₁, out₁) := applyRememberAction g a
    let (g₂, out₂) := runRememberActions g₁ as_
    (g₂, out₁ ++ out₂)

/-- One upstream value through `_remember`: run the `next` callback's
actions. -/
def rememberNext (g : RememberGroup T) (value : T) :
    RememberGroup T × List (Nat × T) :=
  runRememberActions g (rememberNextActions g value)

/-- The teardown `_remember` returns for an observer (lines 295-302):
`observers.delete(observer)`, and on the 1-to-0 transition
`subscription.unsubscribe(); subscription = null`.  `lastValue` and
`hasStarted` are left untouched. -/
def rememberUnsubscribe (g : RememberGroup T) (o : Nat) : RememberGroup T :=
  let g₁ := { g with observers := g.observers.erase o }
  if g₁.observers.isEmpty then
    { g₁ with upstreamUnsubscribes := g₁.upstreamUnsubscribes + 1,
              hasSubscription := false }
  else g₁

/-- An externally-driven event on a remember-wrapped stream. -/
inductive RememberEvent (T : Type) where
  | subscribe (o : Nat)
  | upstreamNext (v : T)
  | unsubscribe (o : Nat)
deriving Repr, DecidableEq

/-- One event step on a remember group, accumulating dispatches. -/
def rememberStep (acc : RememberGroup T × List (Nat × T)) :
    RememberEvent T → RememberGroup T × List (Nat × T)
  | .subscribe o =>
    let (g, out) := rememberSubscribe acc.1 o
    (g, acc.2 ++ out)
  | .upstreamNext v =>
    let (g, out) := rememberNext acc.1 v
    (g, acc.2 ++ out)
  | .unsubscribe o =>
    (rememberUnsubscribe acc.1 o, acc.2)

/-- Running a sequence of events on a fresh `_remember()` closure. -/
def rememberRun (events : List (RememberEvent T)) :
    RememberGroup T × List (Nat × T) :=
  events.foldl rememberStep (RememberGroup.init, [])

/-! ## `_debounce` (lines 317-335) and its teardown (lines 362-377)

The operation closes over `queuedFrameID` and `lastValue`.  On a received
value it stores `lastValue = value` and, when no frame is queued
(`requestAnimationFrame` identifiers are nonzero, so `queuedFrameID`
truthiness is modelled as a Bool), queues a callback; the callback fires on
the next animation-frame tick, dispatches `lastValue` through the captured
`nextChannel` (the observer's `next`), and clears `queuedFrameID`.  The
teardown `_nextOperator` installs (line 374) is `subscription.unsubscribe`
alone: no `cancelAnimationFrame` appears anywhere in the source, so
unsubscribing does not cancel a queued callback. -/

/-- The state of one `_debounce` subscription: the closure variables
`queuedFrameID` (as its truthiness) and `lastValue`, plus whether the
upstream subscription is still active (the teardown's only effect). -/
structure DebounceState (T : Type) where
  queuedFrame : Bool
  lastValue : Option T
  upstreamActive : Bool
deriving Repr, DecidableEq

/-- The state right after subscribing, before any upstream value. -/
def DebounceState.init : DebounceState T :=
  ⟨false, none, true⟩

/-- The debounce operation body (lines 322-333) on a received value:
`lastValue = value`, and if no frame is queued, queue one. -/
def debounceNext (s : DebounceState T) (value : T) : DebounceState T :=
  let s₁ := { s with lastValue := some value }
  if s₁.queuedFrame then s₁ else { s₁ with queuedFrame := true }

/-- An animation-frame tick.  If a callback is queued it fires (lines
327-331): it dispatches `lastValue` to the captured `nextChannel` and clears
`queuedFrameID` — regardless of `upstreamActive`, since nothing cancels the
callback.  If no callback is queued, nothing was scheduled and nothing
happens.  (A queued frame always has `lastValue` assigned — the queueing
statement runs after the assignment — so the unreachable `none` branch
dispatches nothing.) -/
def debounceTick (s : DebounceState T) : DebounceState T × List T :=
  if s.queuedFrame then
    match s.lastValue with
    | some v => ({ s with queuedFrame := false }, [v])
    | none => ({ s with queuedFrame := false }, [])
  else
    (s, [])

/-- The teardown returned by `_nextOperator` for a debounce subscription
(line 374): `subscription.unsubscribe`, releasing only the upstream
subscription.  `queuedFrameID` and `lastValue` are untouched. -/
def debounceUnsubscribe (s : DebounceState T) : DebounceState T :=
  { s with upstreamActive := false }

/-- An externally-driven event on a debounce subscription. -/
inductive DebounceEvent (T : Type) where
  | next (v : T)
  | tick
  | unsubscribe
deriving Repr, DecidableEq

/-- One event step on a debounce subscription, accumulating dispatches. -/
def debounceStep (acc : DebounceState T × List T) :
    DebounceEvent T → DebounceState T × List T
  | .next v => (debounceNext acc.1 v, acc.2)
  | .tick =>
    let (s, out) := debounceTick acc.1
    (s, acc.2 ++ out)
  | .unsubscribe => (debounceUnsubscribe acc.1, acc.2)

/-- Running a sequence of events on a fresh debounce subscription. -/
def debounceRun (events : List (DebounceEvent T)) : DebounceState T × List T :=
  events.foldl debounceStep (DebounceState.init, [])

/-! ## Helper lemmas -/

theorem runRememberActions_append (g : RememberGroup T)
    (l₁ l₂ : List (RememberAction T)) :
    runRememberActions g (l₁ ++ l₂) =
      ((runRememberActions (runRememberActions g l₁).1 l₂).1,
       (runRememberActions g l₁).2
         ++ (runRememberActions (runRememberActions g l₁).1 l₂).2) := by
  induction l₁ generalizing g with
  | nil => simp [runRememberActions]
  | cons a l ih => simp [runRememberActions, ih]

theorem runRememberActions_dispatches (g : RememberGroup T) (os : List Nat)
    (v : T) :
    runRememberActions g (os.map fun o => RememberAction.dispatch o v) =
      (g, os.map fun o => (o, v)) := by
  induction os generalizing g with
  | nil => simp [runRememberActions]
  | cons o os ih => simp [runRememberActions, applyRememberAction, ih]

/-- What one upstream value does to a remember group, in closed form: every
registered observer is dispatched the value, and the group ends flagged as
started with the value cached. -/
theorem rememberNext_eq (g : RememberGroup T) (v : T) :
    rememberNext g v =
      ({ g with hasStarted := true, lastValue := some v },
       g.observers.map fun o => (o, v)) := by
  unfold rememberNext rememberNextActions
  rw [runRememberActions_append, runRememberActions_dispatches]
  simp [runRememberActions, applyRememberAction]

/-! ## Operator chains over stream classes -/

/-- The shape of one operator application, for tracking the class of the
stream it returns: an operator built on `_nextOperator` (mapRange, mapTo,
inverted, pluck, log, `_map`, `_filter`, `_debounce`), `merge`, `_remember`,
or `dedupe`. -/
inductive OperatorKind where
  | nextOp
  | mergeOp
  | rememberOp
  | dedupeOp
deriving Repr, DecidableEq

/-- The class of the stream one operator application returns, given the
class of its receiver. -/
def applyOperatorClass : StreamClass → OperatorKind → StreamClass
  | c, .nextOp => nextOperatorClass c
  | c, .mergeOp => mergeClass c
  | c, .rememberOp => rememberClass c
  | c, .dedupeOp => dedupeClass c

/-- The class of the stream a whole chain of operators returns. -/
def chainClass (c : StreamClass) (ops : List OperatorKind) : StreamClass :=
  ops.foldl applyOperatorClass c

/-! ## Claim theorems -/

/-- C1: the claim states that `log` — including when a `pluckPath` is
specified — forwards the original received value unchanged downstream, the
projection being used only for the logged value.  The code instead reassigns
`value = plucker(value)` before `nextChannel(value)`, so with a `pluckPath`
the PLUCKED value is dispatched downstream.  Evaluating the code at the
source doc comment's own example — `log('Name:', 'item.name')` receiving
`{item: {type: 'fruit', name: 'banana'}, count: 2}` — shows the dispatched
value is the string `'banana'`, which is not the original object; this
contradicts the operator's own documentation ("Adding `log` to stream chain
should have no effect on the rest of the chain"). -/
theorem log_with_pluckPath_dispatches_plucked_value :
    logOp "Name:" "item.name"
        (.obj [("item", .obj [("type", .str "fruit"), ("name", .str "banana")]),
               ("count", .num 2)]) =
      .ok ([⟨"Name:", .str "banana"⟩], [.str "banana"]) ∧
    JSVal.str "banana" ≠
      .obj [("item", .obj [("type", .str "fruit"), ("name", .str "banana")]),
            ("count", .num 2)] :=
  ⟨rfl, fun h => JSVal.noConfusion h⟩

/-- C2 counterexample: the claim states every operator — including dedupe
and `_remember` — preserves the concrete runtime subtype of its receiver.
But `dedupe` invoked on a stream of a subclass returns a stream constructed
by `_remember`'s hardcoded `new MotionObservable`, i.e. of the base class,
which differs from the subclass. -/
theorem dedupe_on_subclass_returns_base_class :
    dedupeClass (.subclass "MotionProperty") = .motionObservable ∧
    rememberClass (.subclass "MotionProperty") = .motionObservable ∧
    StreamClass.subclass "MotionProperty" ≠ .motionObservable :=
  ⟨rfl, rfl, fun h => StreamClass.noConfusion h⟩

/-- C2 (amended): operators constructed with the receiver's runtime
constructor — the `_nextOperator`-built operators and `merge` — preserve the
concrete runtime subtype, so any chain of those keeps the specialized type;
but `_remember` constructs the base `MotionObservable` directly, so any
chain whose final operator is `_remember` or `dedupe` (which wraps itself in
`_remember`) returns the base class regardless of the receiver's subtype. -/
theorem operator_chains_and_stream_class (c : StreamClass)
    (ops : List OperatorKind) :
    (OperatorKind.rememberOp ∉ ops ∧ OperatorKind.dedupeOp ∉ ops →
      chainClass c ops = c) ∧
    (∀ k : OperatorKind, k = .rememberOp ∨ k = .dedupeOp →
      chainClass c (ops ++ [k]) = .motionObservable) := by
  constructor
  · intro h
    induction ops generalizing c with
    | nil => rfl
    | cons k ops ih =>
      simp only [List.mem_cons, not_or] at h
      have hk : applyOperatorClass c k = c := by
        cases k with
        | nextOp => rfl
        | mergeOp => rfl
        | rememberOp => exact absurd rfl h.1.1
        | dedupeOp => exact absurd rfl h.2.1
      simpa [chainClass, List.foldl, hk] using
        ih (applyOperatorClass c k) ⟨h.1.2, h.2.2⟩
  · intro k hk
    have : chainClass c (ops ++ [k]) =
        applyOperatorClass (chainClass c ops) k := by
      simp [chainClass, List.foldl_append]
    rw [this]
    rcases hk with h | h <;> subst h <;> rfl

/-- C3: on a remember-wrapped stream, observer `a` subscribes before any
upstream value, upstream dispatches 5, then observer `b` subscribes: the run
dispatches 5 to `a` (on the upstream dispatch) and 5 to `b`, and `b`'s 5
is emitted synchronously by `b`'s own subscribe call; after `a` then `b`
unsubscribe, the upstream subscription has been torn down exactly once, on
the 1-to-0 transition (it is still 0 after `a` alone unsubscribes), the
upstream producer having been subscribed exactly once. -/
theorem remember_replays_cached_value_to_new_subscriber (a b : Nat)
    (h : a ≠ b) :
    (rememberRun [.subscribe a, .upstreamNext (5 : Int), .subscribe b]).2
      = [(a, 5), (b, 5)] ∧
    (rememberSubscribe (rememberRun [.subscribe a, .upstreamNext (5 : Int)]).1
        b).2 = [(b, 5)] ∧
    (rememberRun [.subscribe a, .upstreamNext (5 : Int), .subscribe b,
        .unsubscribe a]).1.upstreamUnsubscribes = 0 ∧
    (rememberRun [.subscribe a, .upstreamNext (5 : Int), .subscribe b,
        .unsubscribe a, .unsubscribe b]).1.upstreamUnsubscribes = 1 ∧
    (rememberRun [.subscribe a, .upstreamNext (5 : Int), .subscribe b,
        .unsubscribe a, .unsubscribe b]).1.upstreamSubscribes = 1 := by
  have h1 : rememberSubscribe (RememberGroup.init (T := Int)) a =
      (⟨[a], true, 1, 0, none, false⟩, []) := by
    simp [rememberSubscribe, RememberGroup.init]
  have h2 : rememberNext (⟨[a], true, 1, 0, none, false⟩ : RememberGroup Int) 5 =
      (⟨[a], true, 1, 0, some 5, true⟩, [(a, 5)]) := by
    rw [rememberNext_eq]; rfl
  have h3 : rememberSubscribe
      (⟨[a], true, 1, 0, some (5 : Int), true⟩ : RememberGroup Int) b =
      (⟨[a, b], true, 1, 0, some 5, true⟩, [(b, 5)]) := by
    simp [rememberSubscribe, Ne.symm h]
  have h4 : rememberUnsubscribe
      (⟨[a, b], true, 1, 0, some (5 : Int), true⟩ : RememberGroup Int) a =
      ⟨[b], true, 1, 0, some 5, true⟩ := by
    simp [rememberUnsubscribe, List.erase_cons_head]
  have h5 : rememberUnsubscribe
      (⟨[b], true, 1, 0, some (5 : Int), true⟩ : RememberGroup Int) b =
      ⟨[], false, 1, 1, some 5, true⟩ := by
    simp [rememberUnsubscribe]
  refine ⟨?_, ?_, ?_, ?_, ?_⟩ <;>
    simp [rememberRun, rememberStep, List.foldl, h1, h2, h3, h4, h5]

/-- Witness for C3 at the concrete observers 0 and 1. -/
theorem remember_replays_cached_value_witness :
    (rememberRun [.subscribe 0, .upstreamNext (5 : Int), .subscribe 1]).2
      = [(0, 5), (1, 5)] :=
  (remember_replays_cached_value_to_new_subscriber 0 1 (by decide)).1

/-- The ordering C4 asserts for the upstream-next callback of `_remember`:
every dispatch of a value is preceded by the write caching that value
(`setLastValue`) and the write setting the started flag. -/
def cacheUpdatesPrecedeEachDispatch (acts : List (RememberAction T)) : Prop :=
  ∀ pre o v post, acts = pre ++ RememberAction.dispatch o v :: post →
    RememberAction.setLastValue v ∈ pre ∧ RememberAction.setHasStarted ∈ pre

/-- C4 counterexample: the claim states each upstream value is first cached
as `lastValue` (with the started flag set) and only then fanned out.  At the
concrete group with registered observer 0, started, and cached value 4, the
callback's action list for upstream value 5 begins with the dispatch and
only afterwards performs the two state writes, so the asserted ordering
fails; consequently an observer (1) that subscribes synchronously during the
fan-out of 5 — while the group state is still the pre-update one — is
replayed the earlier cached value 4, not 5. -/
theorem remember_dispatches_before_caching :
    rememberNextActions (⟨[0], true, 1, 0, some 4, true⟩ : RememberGroup Int) 5
      = [.dispatch 0 5, .setHasStarted, .setLastValue 5] ∧
    ¬ cacheUpdatesPrecedeEachDispatch
        (rememberNextActions (⟨[0], true, 1, 0, some 4, true⟩ : RememberGroup Int) 5) ∧
    (rememberSubscribe (⟨[0], true, 1, 0, some (4 : Int), true⟩ : RememberGroup Int) 1).2
      = [(1, 4)] := by
  refine ⟨rfl, ?_, by decide⟩
  intro hcl
  have h := hcl [] 0 5 [.setHasStarted, .setLastValue 5] rfl
  simp at h

/-- C4 (amended): each upstream value `v` is fanned out to the
currently-registered observers, in registration order, BEFORE `hasStarted`
and `lastValue` are updated: the group state is unchanged throughout the
dispatch prefix of the callback's actions, so an observer that subscribes
synchronously during the fan-out of `v` is replayed the previously cached
value `w`, not `v`; only once the fan-out is over are the started flag set
and `v` cached. -/
theorem remember_fanout_precedes_caching (T : Type) (g : RememberGroup T)
    (v w : T) (o : Nat) (ho : o ∉ g.observers) (hs : g.hasStarted = true)
    (hw : g.lastValue = some w) :
    (runRememberActions g (g.observers.map fun p =>
        RememberAction.dispatch p v)).1 = g ∧
    (rememberSubscribe g o).2 = [(o, w)] ∧
    (rememberNext g v).2 = (g.observers.map fun p => (p, v)) ∧
    (rememberNext g v).1.hasStarted = true ∧
    (rememberNext g v).1.lastValue = some v := by
  refine ⟨?_, ?_, ?_, ?_, ?_⟩
  · rw [runRememberActions_dispatches]
  · unfold rememberSubscribe
    rw [if_neg ho]
    by_cases he : g.observers.isEmpty <;> simp [he, hs, hw]
  · simp [rememberNext_eq]
  · simp [rememberNext_eq]
  · simp [rememberNext_eq]

/-- Witness for C4's amended theorem at a concrete group: observer 0
registered, started, cached value 4; upstream value 5; subscriber 1. -/
theorem remember_fanout_precedes_caching_witness :
    (rememberSubscribe (⟨[0], true, 1, 0, some (4 : Int), true⟩ : RememberGroup Int) 1).2
      = [(1, 4)] :=
  (remember_fanout_precedes_caching Int ⟨[0], true, 1, 0, some 4, true⟩ 5 4 1
    (by decide) rfl rfl).2.1

/-- C5 counterexample: the claim states that after the last subscriber
leaves, the group state is gone, so a later first subscriber is NOT
synchronously replayed a value cached before the teardown.  Concretely:
subscribe 0, upstream value 5, unsubscribe 0 — after which the upstream
subscription has indeed been released once and the handle cleared — then
subscribing observer 1 synchronously replays the stale cached 5 to it. -/
theorem remember_replays_stale_value_after_teardown :
    (rememberRun [.subscribe 0, .upstreamNext (5 : Int), .unsubscribe 0]).1
      = ⟨[], false, 1, 1, some 5, true⟩ ∧
    (rememberSubscribe (⟨[], false, 1, 1, some (5 : Int), true⟩ : RememberGroup Int) 1).2
      = [(1, 5)] := by
  exact ⟨by decide, by decide⟩

/-- C5 (amended): on the 1-to-0 transition the upstream subscription is
released and the shared handle cleared, and a later first subscriber does
restart the upstream producer (a second upstream subscribe occurs); but
`lastValue` and `hasStarted` persist in the `_remember` closure, so that
later first subscriber IS synchronously replayed the value cached before
the teardown. -/
theorem remember_teardown_keeps_cached_value (T : Type) (v : T) :
    (rememberRun [.subscribe 0, .upstreamNext v, .unsubscribe 0]).1
      = ⟨[], false, 1, 1, some v, true⟩ ∧
    rememberSubscribe (⟨[], false, 1, 1, some v, true⟩ : RememberGroup T) 1
      = (⟨[1], true, 2, 1, some v, true⟩, [(1, v)]) := by
  have h1 : rememberSubscribe (RememberGroup.init (T := T)) 0 =
      (⟨[0], true, 1, 0, none, false⟩, []) := by
    simp [rememberSubscribe, RememberGroup.init]
  have h2 : rememberNext (⟨[0], true, 1, 0, none, false⟩ : RememberGroup T) v =
      (⟨[0], true, 1, 0, some v, true⟩, [(0, v)]) := by
    rw [rememberNext_eq]; rfl
  have h3 : rememberUnsubscribe
      (⟨[0], true, 1, 0, some v, true⟩ : RememberGroup T) 0 =
      ⟨[], false, 1, 1, some v, true⟩ := by
    simp [rememberUnsubscribe]
  constructor
  · simp [rememberRun, rememberStep, List.foldl, h1, h2, h3]
  · simp [rememberSubscribe]

/-- The deep-equal default comparator (an external dependency of `dedupe`,
line 162), restricted to the primitive numbers the C6 sequence contains:
deep structural equality on numbers is numeric equality. -/
def deepEqualNum (a b : Int) : Bool :=
  a == b

/-- The ordering C6 asserts for the dedupe operation: every dispatch of a
value is preceded by the write caching that value (`setLastValue`) and the
write setting the has-dispatched flag. -/
def flagUpdatesPrecedeEachDispatch (acts : List (DedupeAction T)) : Prop :=
  ∀ pre v post, acts = pre ++ DedupeAction.dispatch v :: post →
    DedupeAction.setLastValue v ∈ pre ∧ DedupeAction.setDispatched ∈ pre

/-- C6: a `dedupe()` stream with the default (deep) equality receiving the
upstream sequence [1, 1, 2, 2, 2, 3] dispatches exactly [1, 2, 3]; the
`_remember` stage dedupe pipes itself through forwards each of those to the
registered subscriber in order; and for every state and received value, the
operation's action list updates `lastValue` and the has-dispatched flag
before the downstream dispatch. -/
theorem dedupe_drops_consecutive_duplicates :
    dedupeRun deepEqualNum [1, 1, 2, 2, 2, 3] = [1, 2, 3] ∧
    (rememberRun [.subscribe 0, .upstreamNext (1 : Int), .upstreamNext 2,
        .upstreamNext 3]).2 = [(0, 1), (0, 2), (0, 3)] ∧
    ∀ (T : Type) (q : T → T → Bool) (s : DedupeState T) (v : T),
      flagUpdatesPrecedeEachDispatch (dedupeActions q s v) := by
  refine ⟨by decide, by decide, ?_⟩
  intro T q s v pre w post h
  unfold dedupeActions at h
  split at h
  · simp at h
  · rcases pre with _ | ⟨a, _ | ⟨b, _ | ⟨c, pre⟩⟩⟩ <;> simp_all
    exact Or.inl (h.2.2.1 ▸ h.1)

/-- The last element of a cons cell, as an option: the last of the tail,
defaulting to the head. -/
theorem getLast?_cons_getD (rest : List T) (v : T) :
    (v :: rest).getLast? = some (rest.getLast?.getD v) := by
  induction rest generalizing v with
  | nil => rfl
  | cons w t ih =>
    rw [List.getLast?_cons_cons, ih w]
    rfl

/-- Folding received values into a debounce state that already has a frame
queued: the frame stays queued, only `lastValue` advances to the most
recent value. -/
theorem foldl_debounceNext_queued (vs : List T) (s : DebounceState T) (v : T)
    (hq : s.queuedFrame = true) (hv : s.lastValue = some v) :
    vs.foldl debounceNext s = ⟨true, some (vs.getLast?.getD v), s.upstreamActive⟩ := by
  induction vs generalizing s v with
  | nil => cases s; simp_all
  | cons u rest ih =>
    have h1 : debounceNext s u = ⟨true, some u, s.upstreamActive⟩ := by
      cases s
      simp_all [debounceNext]
    rw [List.foldl_cons, h1, ih ⟨true, some u, s.upstreamActive⟩ u rfl rfl,
        getLast?_cons_getD]
    rfl

/-- Received values contribute no dispatches of their own on a debounce
stream; they only advance the state. -/
theorem foldl_debounceStep_nexts (vs : List T) (s : DebounceState T)
    (out : List T) :
    (vs.map DebounceEvent.next).foldl debounceStep (s, out) =
      (vs.foldl debounceNext s, out) := by
  induction vs generalizing s with
  | nil => rfl
  | cons v rest ih => simp [List.foldl_cons, debounceStep, ih]

/-- Closed form of a debounce run: any burst of received values followed by
one tick dispatches exactly the last received value (and nothing when the
burst is empty, since then no callback was queued). -/
theorem debounceRun_nexts_tick (vs : List T) :
    (debounceRun (vs.map DebounceEvent.next ++ [.tick])).2 = vs.getLast?.toList := by
  cases vs with
  | nil => rfl
  | cons v rest =>
    unfold debounceRun
    rw [List.map_cons, List.cons_append, List.foldl_cons]
    have h0 : debounceStep ((DebounceState.init : DebounceState T), ([] : List T))
        (.next v) = (⟨true, some v, true⟩, []) := rfl
    rw [h0, List.foldl_append, foldl_debounceStep_nexts,
        foldl_debounceNext_queued rest ⟨true, some v, true⟩ v rfl rfl,
        getLast?_cons_getD]
    simp [List.foldl, debounceStep, debounceTick]

/-- C7: on a debounce stream, the values 1, 2, 3 received synchronously
before any tick produce exactly one dispatch, of 3, on the next tick; in
general any burst of received values followed by one tick dispatches
exactly the most recent value of the burst, and any single tick produces at
most one dispatch, whose value is the state's most recently received
value. -/
theorem debounce_coalesces_to_latest_value_per_tick :
    (debounceRun [.next (1 : Int), .next 2, .next 3, .tick]).2 = [3] ∧
    (∀ vs : List Int,
      (debounceRun (vs.map DebounceEvent.next ++ [.tick])).2 = vs.getLast?.toList) ∧
    (∀ (T : Type) (s : DebounceState T), (debounceTick s).2.length ≤ 1 ∧
      ∀ v, v ∈ (debounceTick s).2 → s.lastValue = some v) := by
  refine ⟨by decide, fun vs => debounceRun_nexts_tick vs, ?_⟩
  intro T s
  by_cases hq : s.queuedFrame = true <;> cases hv : s.lastValue <;>
    simp_all [debounceTick]

/-- C8 counterexample: the claim states that unsubscribing releases any
pending scheduled callback, so a subscriber never receives a dispatch after
its unsubscribe returns.  Concretely: after receiving 1 (a frame callback
is queued) and then unsubscribing, the frame is still queued, and the next
tick dispatches 1 to the observer — a dispatch delivered after the
unsubscribe returned. -/
theorem debounce_pending_callback_survives_unsubscribe :
    (debounceRun [.next (1 : Int), .unsubscribe]).1 = ⟨true, some 1, false⟩ ∧
    (debounceRun [.next (1 : Int), .unsubscribe, .tick]).2 = [1] :=
  ⟨by decide, by decide⟩

/-- C8 (amended): unsubscribing a debounce subscription releases the
upstream subscription (the only thing `_nextOperator`'s teardown does), but
does NOT cancel a pending scheduled callback — no cancelAnimationFrame is
ever invoked — so a callback queued before the unsubscribe still fires on
the next tick and dispatches the buffered value to the observer. -/
theorem unsubscribe_releases_upstream_but_not_pending_frame (T : Type)
    (s : DebounceState T) (v : T) (hq : s.queuedFrame = true)
    (hv : s.lastValue = some v) :
    (debounceUnsubscribe s).upstreamActive = false ∧
    (debounceUnsubscribe s).queuedFrame = true ∧
    (debounceTick (debounceUnsubscribe s)).2 = [v] := by
  refine ⟨rfl, hq, ?_⟩
  simp [debounceTick, debounceUnsubscribe, hq, hv]

/-- Witness for C8's amended theorem at the concrete state with a queued
frame buffering 1. -/
theorem unsubscribe_keeps_pending_frame_witness :
    (debounceTick (debounceUnsubscribe
        (⟨true, some (1 : Int), true⟩ : DebounceState Int))).2 = [1] :=
  (unsubscribe_releases_upstream_but_not_pending_frame Int
    ⟨true, some 1, true⟩ 1 rfl rfl).2.2

/-- C9: an `inverted()` stream receiving the upstream sequence
[0, 1, true, false, 2] dispatches exactly [1, 0, false, true] — the value 2
produces no dispatch — and in general every received value other than the
four recognized values 0, 1, true, false produces no dispatch at all rather
than being passed through. -/
theorem inverted_toggles_and_drops_unrecognized (v : JSVal)
    (h0 : v ≠ .num 0) (h1 : v ≠ .num 1) (ht : v ≠ .bool true)
    (hf : v ≠ .bool false) :
    invertedRun [.num 0, .num 1, .bool true, .bool false, .num 2]
      = [.num 1, .num 0, .bool false, .bool true] ∧
    invertedOp v = none := by
  refine ⟨rfl, ?_⟩
  cases v with
  | num n =>
    rcases n with m | m
    · rcases m with _ | _ | m
      · exact absurd rfl h0
      · exact absurd rfl h1
      · rfl
    · rfl
  | bool b =>
    cases b
    · exact absurd rfl hf
    · exact absurd rfl ht
  | undefined => rfl
  | null => rfl
  | str s => rfl
  | obj fs => rfl

/-- Witness for C9 at the concrete unrecognized value 2. -/
theorem inverted_drops_two_witness :
    invertedOp (.num 2) = none :=
  (inverted_toggles_and_drops_unrecognized (.num 2)
    (by simp) (by simp) (by simp) (by simp)).2

/-- Path traversal fails exactly when some proper prefix of the segment list
resolves to a non-indexable value (`null` or `undefined`) while a further
segment is still pending. -/
theorem pluckSegments_error_iff (ss : List String) (v : JSVal) :
    (∃ e, pluckSegments ss v = .error e) ↔
    (∃ pre s post w, ss = pre ++ s :: post ∧ pluckSegments pre v = .ok w ∧
      (w = JSVal.null ∨ w = JSVal.undefined)) := by
  induction ss generalizing v with
  | nil => simp [pluckSegments]
  | cons s ss ih =>
    cases v
    case null =>
      constructor
      · intro _
        exact ⟨[], s, ss, .null, rfl, rfl, Or.inl rfl⟩
      · intro _
        exact ⟨⟨s⟩, rfl⟩
    case undefined =>
      constructor
      · intro _
        exact ⟨[], s, ss, .undefined, rfl, rfl, Or.inr rfl⟩
      · intro _
        exact ⟨⟨s⟩, rfl⟩
    all_goals
      (simp only [pluckSegments]
       rw [ih]
       constructor
       · rintro ⟨pre, s0, post, w, hss, hok, hw⟩
         exact ⟨s :: pre, s0, post, w, by rw [hss, List.cons_append], hok, hw⟩
       · rintro ⟨pre, s0, post, w, hss, hok, hw⟩
         cases pre with
         | nil =>
           simp only [pluckSegments] at hok
           rcases hw with h | h <;> simp_all
         | cons s1 pre =>
           simp only [List.cons_append, List.cons.injEq] at hss
           obtain ⟨hh1, hh2⟩ := hss
           subst hh1
           exact ⟨pre, s0, post, w, hh2, hok, hw⟩)

/-- C10: `pluck('a.b')` receiving `{a: {b: 7}}` dispatches 7; receiving
`{a: null}` raises the PathResolutionError-class failure (a `TypeError` at
the pending segment `'b'`), which propagates; and in general path traversal
fails exactly when an intermediate prefix of the path resolves to a
non-indexable value (`null` or `undefined`) while a later segment is still
pending. -/
theorem pluck_resolves_path_or_fails_on_nonindexable :
    createPlucker "a.b" (.obj [("a", .obj [("b", .num 7)])]) = .ok (.num 7) ∧
    createPlucker "a.b" (.obj [("a", .null)]) = .error ⟨"b"⟩ ∧
    ∀ (ss : List String) (v : JSVal),
      (∃ e, pluckSegments ss v = .error e) ↔
      (∃ pre s post w, ss = pre ++ s :: post ∧ pluckSegments pre v = .ok w ∧
        (w = JSVal.null ∨ w = JSVal.undefined)) :=
  ⟨rfl, rfl, pluckSegments_error_iff⟩
